import Mathlib

/-!
# goggles: package documentation extraction (`pkg.go`)

A shallow embedding of `pkg.go` and the properties of its documentation
pipeline: the file filter, `parseDocs`, `makeDocs`, and the renderers
`printToken`, `printValues`, `printFuncs`, `printTypes`.

Go strings are embedded as Lean strings.  Every pattern the program compares
against (`"."`, `".go"`, `"_test.go"`) is ASCII, so comparing characters and
comparing bytes agree on UTF-8 text.
-/

set_option autoImplicit false

namespace Goggles

/-! ## Pieces of the Go standard library used by `pkg.go` -/

/-- Go `strings.HasPrefix`: `len(s) >= len(prefix) && s[:len(prefix)] == prefix`. -/
def HasPrefix (s pre : String) : Bool :=
  decide (s.data.length ≥ pre.data.length) && (s.data.take pre.data.length == pre.data)

/-- Go `strings.HasSuffix`: `len(s) >= len(suffix) && s[len(s)-len(suffix):] == suffix`. -/
def HasSuffix (s suf : String) : Bool :=
  decide (s.data.length ≥ suf.data.length) &&
    (s.data.drop (s.data.length - suf.data.length) == suf.data)

/-- The part of `os.FileInfo` the program reads: the base name of the file
(`Name()`), next to the directory flag (`IsDir()`), which it never consults. -/
structure FileInfo where
  Name : String
  IsDir : Bool
deriving DecidableEq, Repr

/-- Go `unicode.IsSpace`: the white-space code points `strings.TrimSpace` removes. -/
def isSpace (c : Char) : Bool :=
  let n := c.toNat
  (9 ≤ n && n ≤ 13) || n == 32 || n == 0x85 || n == 0xA0 || n == 0x1680 ||
    (0x2000 ≤ n && n ≤ 0x200a) || n == 0x2028 || n == 0x2029 || n == 0x202f ||
    n == 0x205f || n == 0x3000

/-- Go `strings.TrimSpace`: the string without its leading and trailing white space. -/
def TrimSpace (s : String) : String :=
  ⟨((s.data.dropWhile isSpace).reverse.dropWhile isSpace).reverse⟩

/-- A Go `error` value. -/
structure Error where
  msg : String
deriving DecidableEq, Repr

/-- A `token.FileSet`: the files whose positions have been recorded. -/
structure FileSet where
  files : List String
deriving DecidableEq, Repr

/-- Go `token.NewFileSet()`. -/
def NewFileSet : FileSet := ⟨[]⟩

/-- An `*ast.GenDecl` (a const, var or type declaration), known by its node
identity; its text is only observed through the printer. -/
structure GenDecl where
  id : Nat
deriving DecidableEq, Repr

/-- An `*ast.FuncDecl`, known by its node identity. -/
structure FuncDecl where
  id : Nat
deriving DecidableEq, Repr

/-- An `*ast.Package`: the files of one package name found in a directory. -/
structure AstPackage where
  Name : String
  Files : List String
deriving DecidableEq, Repr

/-- A `doc.Value`: a const or var declaration group. -/
structure Value where
  Doc : String
  Names : List String
  Decl : GenDecl
deriving DecidableEq, Repr

/-- A `doc.Func`: a function or method declaration; `Recv` is the receiver
type name, empty for a plain function. -/
structure Func where
  Doc : String
  Name : String
  Decl : FuncDecl
  Recv : String
deriving DecidableEq, Repr

/-- A `doc.Type`.  In go/doc, `Funcs` holds the functions associated with the
type and `Methods` holds its methods. -/
structure DocType where
  Doc : String
  Name : String
  Decl : GenDecl
  Consts : List Value
  Vars : List Value
  Funcs : List Func
  Methods : List Func
deriving DecidableEq, Repr

/-- A `doc.Package`: the declaration model of one package. -/
structure DocPackage where
  Doc : String
  Name : String
  ImportPath : String
  Consts : List Value
  Types : List DocType
  Vars : List Value
  Funcs : List Func
deriving DecidableEq, Repr

/-- The values `printToken` hands to the printer as `interface{}`: a const/var
declaration (`v.Decl`), a function declaration (`f.Decl`), or a Go string
(`v.Doc`). -/
inductive Node where
  | genDecl (d : GenDecl)
  | funcDecl (d : FuncDecl)
  | text (s : String)
deriving DecidableEq, Repr

/-- What `parser.ParseDir` hands back: the file set it filled in, the map of
packages by name listed in the order a `range` over it visits them, and the
first error met. -/
structure ParseDirResult where
  fset : FileSet
  pkgs : List AstPackage
  err : Option Error
deriving DecidableEq, Repr

/-- The collaborators of `pkg.go` that live outside it: `srcdir()`,
`filepath.Join`, `parser.ParseDir` (called with `parser.ParseComments`),
`doc.New(pkg, ".", 0)` and `printer.Config{TabIndent, 4}.Fprint`.  `Fprint`
yields the bytes written to the buffer and the error it returns. -/
structure Env where
  srcdir : String
  Join : String → String → String
  ParseDir : FileSet → String → (FileInfo → Bool) → ParseDirResult
  docNew : AstPackage → DocPackage
  Fprint : FileSet → Node → String × Option Error

/-! ## The data of `pkg.go` -/

/-- The struct `PkgType`. -/
structure PkgType where
  Name : String
  Header : String
  Constants : String
  Variables : String
  Functions : String
deriving DecidableEq, Repr

/-- The anonymous struct of the field `Pkg.Docs`. -/
structure Docs where
  Name : String
  Import : String
  Package : String
  Constants : String
  Variables : String
  Functions : String
  Types : List PkgType
deriving DecidableEq, Repr

/-- The struct `Pkg`; `Name` is the field promoted from the embedded `depth.Pkg`. -/
structure Pkg where
  Name : String
  files : FileSet
  Docs : Docs
deriving DecidableEq, Repr

/-- How a call of `makeDocs` ends: it returns its `error` result (`none` for
`nil`), or the goroutine panics. -/
inductive Outcome where
  | returned (err : Option Error)
  | panicked (reason : String)
deriving DecidableEq, Repr

/-- The state after a call of `makeDocs`: the receiver, what was written to
standard error, and how the call ended. -/
structure Run where
  pkg : Pkg
  stderr : String
  outcome : Outcome
deriving DecidableEq, Repr

/-! ## The file filter of `parseDocs` -/

/-- The closure `filter` declared at the top of `parseDocs`. -/
def filter (file : FileInfo) : Bool :=
  let name := file.Name
  !HasPrefix name "." && HasSuffix name ".go" && !HasSuffix name "_test.go"

/-! ## Rendering -/

/-- The method `printToken`: the printer output, or the empty string when the
printer reports an error. -/
def printToken (E : Env) (p : Pkg) (t : Node) : String :=
  let r := E.Fprint p.files t
  match r.2 with
  | some _ => ""
  | none => r.1

/-- The method `printValues`: one `Fprintf` of the format
"```\n%s\n%s\n```\n" per value, with `printToken(v.Decl)` and
`printToken(v.Doc)` as arguments. -/
def printValues (E : Env) (p : Pkg) (vals : List Value) : String :=
  vals.foldl
    (fun b v =>
      b ++ ("```\n" ++ printToken E p (.genDecl v.Decl) ++ "\n" ++
        printToken E p (.text v.Doc) ++ "\n```\n"))
    ""

/-- The method `printFuncs`.  The first component is the returned string: one
`Fprintf` of the format "%s\n```\n%s\n```\n" per function, with `f.Doc` and
`printToken(f.Decl)` as arguments.  The second component is what
`println(receiver)` wrote to standard error. -/
def printFuncs (E : Env) (p : Pkg) (funcs : List Func) : String × String :=
  funcs.foldl
    (fun st f =>
      let receiver := if f.Recv ≠ "" then "(" ++ f.Recv ++ ")" else ""
      (st.1 ++ (f.Doc ++ "\n```\n" ++ printToken E p (.funcDecl f.Decl) ++ "\n```\n"),
        st.2 ++ (receiver ++ "\n")))
    ("", "")

/-- The method `printTypes`.  The first component is the returned slice, the
second what the calls of `printFuncs` wrote to standard error. -/
def printTypes (E : Env) (p : Pkg) (types : List DocType) : List PkgType × String :=
  types.foldl
    (fun st t =>
      let consts := printValues E p t.Consts
      let vars := printValues E p t.Vars
      let funcs := printFuncs E p t.Funcs
      (st.1 ++ [{ Name := t.Name, Header := "type " ++ t.Name, Constants := consts,
                  Variables := vars, Functions := funcs.1 }],
        st.2 ++ funcs.2))
    ([], "")

/-! ## Parsing and assembly -/

/-- The method `parseDocs`: the receiver after the call (its file set filled in
by the parser), the `*doc.Package` result (`none` for `nil`) and the `error`
result.  The loop over the package map returns at its first iteration. -/
def parseDocs (E : Env) (p : Pkg) : Pkg × Option DocPackage × Option Error :=
  let r := E.ParseDir p.files (E.Join E.srcdir p.Name) filter
  let p := { p with files := r.fset }
  match r.err with
  | some err => (p, none, some err)
  | none =>
    match r.pkgs with
    | pkg :: _ => (p, some (E.docNew pkg), none)
    | [] => (p, none, none)

/-- The method `makeDocs`.  Reading `doc.Name` through a nil `doc` panics
before any field of `Docs` is assigned. -/
def makeDocs (E : Env) (p : Pkg) : Run :=
  let p := { p with files := NewFileSet }
  match parseDocs E p with
  | (p, _, some err) => ⟨p, "", .returned (some err)⟩
  | (p, none, none) => ⟨p, "", .panicked "invalid memory address or nil pointer dereference"⟩
  | (p, some doc, none) =>
    let p := { p with Docs := { p.Docs with Name := doc.Name } }
    let p := { p with Docs := { p.Docs with Import := "import \"" ++ p.Name ++ "\"" } }
    let p := { p with Docs := { p.Docs with Package := TrimSpace doc.Doc } }
    let p := { p with Docs := { p.Docs with Constants := printValues E p doc.Consts } }
    let p := { p with Docs := { p.Docs with Variables := printValues E p doc.Vars } }
    let funcs := printFuncs E p doc.Funcs
    let p := { p with Docs := { p.Docs with Functions := funcs.1 } }
    let types := printTypes E p doc.Types
    let p := { p with Docs := { p.Docs with Types := types.1 } }
    ⟨p, funcs.2 ++ types.2, .returned none⟩

/-! ## A concrete world, for evaluating the program -/

/-- A file of a sample directory: its directory entry and the package clause
it carries. -/
structure SampleFile where
  info : FileInfo
  pkg : String
deriving DecidableEq, Repr

/-- The sample source tree, by directory path. -/
def sampleTree (dir : String) : Option (List SampleFile) :=
  if dir = "src/demo" then
    some [⟨⟨"demo.go", false⟩, "demo"⟩, ⟨⟨"demo_test.go", false⟩, "demo_test"⟩,
          ⟨⟨".draft.go", false⟩, "draft"⟩]
  else if dir = "src/empty" then
    some [⟨⟨"README.md", false⟩, ""⟩, ⟨⟨".hidden.go", false⟩, "empty"⟩,
          ⟨⟨"only_test.go", false⟩, "empty"⟩, ⟨⟨"vendor.go", true⟩, ""⟩]
  else if dir = "src/two" then
    some [⟨⟨"gen.go", false⟩, "main"⟩, ⟨⟨"two.go", false⟩, "two"⟩]
  else if dir = "src/recv" then
    some [⟨⟨"recv.go", false⟩, "recv"⟩]
  else
    none

/-- The packages of a list of accepted files, by first appearance. -/
def samplePackages (files : List SampleFile) : List AstPackage :=
  (files.map (fun f => f.pkg)).dedup.map
    (fun n => ⟨n, (files.filter (fun f => f.pkg == n)).map (fun f => f.info.Name)⟩)

/-- A `parser.ParseDir` over the sample tree: directories and names without the
".go" extension are skipped, then the caller's filter decides; `visit` is the
order in which `range` goes through the resulting map. -/
def sampleParseDir (visit : List AstPackage → List AstPackage)
    (fset : FileSet) (dir : String) (flt : FileInfo → Bool) : ParseDirResult :=
  match sampleTree dir with
  | none => ⟨fset, [], some ⟨"open " ++ dir ++ ": no such file or directory"⟩⟩
  | some files =>
    let accepted := files.filter
      (fun f => !f.info.IsDir && HasSuffix f.info.Name ".go" && flt f.info)
    ⟨⟨fset.files ++ accepted.map (fun f => f.info.Name)⟩, visit (samplePackages accepted), none⟩

/-- The declaration models of the sample tree, as `doc.New` hands them over:
go/doc sorts each sequence by name, files a function that returns a type under
that type's `Funcs`, and keeps a method under its receiver type's `Methods`.
The package "recv" declares the type T and the method M on it. -/
def sampleDocNew (pkg : AstPackage) : DocPackage :=
  if pkg.Name = "demo" then
    { Doc := "Package demo says hi.\n", Name := "demo", ImportPath := ".",
      Consts := [⟨"Pi is a ratio.\n", ["Pi"], ⟨1⟩⟩],
      Vars := [⟨"Debug switches tracing.\n", ["Debug"], ⟨2⟩⟩],
      Funcs := [⟨"Bye says bye.\n", "Bye", ⟨4⟩, ""⟩, ⟨"Hi says hi.\n", "Hi", ⟨1⟩, ""⟩],
      Types := [⟨"T is a thing.\n", "T", ⟨3⟩, [], [], [⟨"NewT makes a T.\n", "NewT", ⟨3⟩, ""⟩],
                  [⟨"M does.\n", "M", ⟨2⟩, "T"⟩]⟩,
                ⟨"", "U", ⟨4⟩, [], [], [], []⟩] }
  else if pkg.Name = "recv" then
    { Doc := "", Name := "recv", ImportPath := ".", Consts := [], Vars := [],
      Funcs := [],
      Types := [⟨"", "T", ⟨3⟩, [], [], [], [⟨"M does.\n", "M", ⟨2⟩, "T"⟩]⟩] }
  else
    { Doc := "", Name := pkg.Name, ImportPath := ".", Consts := [], Vars := [],
      Funcs := [], Types := [] }

/-- A printer over the sample tree.  As go/printer does, it rejects a Go string
("unsupported node type"); the function declaration 9 and unknown const/var
declarations fail after part of the text was written. -/
def sampleFprint (_ : FileSet) (t : Node) : String × Option Error :=
  match t with
  | .genDecl d =>
    if d.id = 1 then ("const Pi = 3", none)
    else if d.id = 2 then ("var Debug bool", none)
    else ("const (", some ⟨"go/printer: malformed declaration"⟩)
  | .funcDecl d =>
    if d.id = 1 then ("func Hi()", none)
    else if d.id = 2 then ("func (t T) M()", none)
    else if d.id = 3 then ("func NewT() T", none)
    else if d.id = 4 then ("func Bye()", none)
    else ("func", some ⟨"go/printer: malformed declaration"⟩)
  | .text _ => ("", some ⟨"go/printer: unsupported node type string"⟩)

/-- The sample world; the package map is visited in order of first appearance. -/
def sampleEnv : Env :=
  { srcdir := "src", Join := fun a b => a ++ "/" ++ b,
    ParseDir := sampleParseDir id, docNew := sampleDocNew, Fprint := sampleFprint }

/-- The sample world again, the package map visited in the opposite order. -/
def sampleEnvRev : Env :=
  { srcdir := "src", Join := fun a b => a ++ "/" ++ b,
    ParseDir := sampleParseDir List.reverse, docNew := sampleDocNew, Fprint := sampleFprint }

/-- The sample world with a printer under which the function declaration 9
serializes. -/
def sampleEnvHealed : Env :=
  { sampleEnv with
    Fprint := fun fs t => if t = .funcDecl ⟨9⟩ then ("func Nine()", none) else sampleFprint fs t }

/-- A `Pkg` before its first `makeDocs`, for the import path `name`. -/
def samplePkg (name : String) : Pkg :=
  { Name := name, files := ⟨[]⟩,
    Docs := { Name := "", Import := "", Package := "", Constants := "", Variables := "",
              Functions := "", Types := [] } }

/-- Two worlds present the same input to `makeDocs`: the same source root, path
join, classifier and printer, and for every directory the parser gives the
same file set, the same error and the same map of packages, whatever the order
in which each run visits that map. -/
def SameInput (E₁ E₂ : Env) : Prop :=
  E₁.srcdir = E₂.srcdir ∧ E₁.Join = E₂.Join ∧ E₁.docNew = E₂.docNew ∧
  E₁.Fprint = E₂.Fprint ∧
  ∀ (fs : FileSet) (dir : String) (flt : FileInfo → Bool),
    (E₁.ParseDir fs dir flt).fset = (E₂.ParseDir fs dir flt).fset ∧
    (E₁.ParseDir fs dir flt).err = (E₂.ParseDir fs dir flt).err ∧
    (E₁.ParseDir fs dir flt).pkgs.Perm (E₂.ParseDir fs dir flt).pkgs

/-! ## Lemmas on the string primitives -/

theorem hasPrefix_iff (s pre : String) :
    HasPrefix s pre = true ↔ ∃ rest : String, s = pre ++ rest := by
  unfold HasPrefix
  simp only [Bool.and_eq_true, decide_eq_true_eq, beq_iff_eq]
  constructor
  · rintro ⟨_, h⟩
    refine ⟨⟨s.data.drop pre.data.length⟩, ?_⟩
    apply String.ext
    have hsplit := List.take_append_drop pre.data.length s.data
    rw [h] at hsplit
    simpa only [String.data_append] using hsplit.symm
  · rintro ⟨rest, rfl⟩
    simp [String.data_append]

theorem hasSuffix_iff (s suf : String) :
    HasSuffix s suf = true ↔ ∃ stem : String, s = stem ++ suf := by
  unfold HasSuffix
  simp only [Bool.and_eq_true, decide_eq_true_eq, beq_iff_eq]
  constructor
  · rintro ⟨_, h⟩
    refine ⟨⟨s.data.take (s.data.length - suf.data.length)⟩, ?_⟩
    apply String.ext
    have hsplit := List.take_append_drop (s.data.length - suf.data.length) s.data
    rw [h] at hsplit
    simpa only [String.data_append] using hsplit.symm
  · rintro ⟨stem, rfl⟩
    simp [String.data_append]

/-- C1. The file filter of `parseDocs` accepts a name exactly when the name
does not begin with ".", ends with ".go" and does not end with "_test.go";
in particular every name that begins with "." and every name that ends with
"_test.go" is rejected. -/
theorem filter_accepts_iff (file : FileInfo) :
    (filter file = true ↔
      (¬ (∃ rest : String, file.Name = "." ++ rest)) ∧
      (∃ stem : String, file.Name = stem ++ ".go") ∧
      (¬ (∃ stem : String, file.Name = stem ++ "_test.go"))) ∧
    (∀ (rest : String) (d : Bool), filter ⟨"." ++ rest, d⟩ = false) ∧
    (∀ (stem : String) (d : Bool), filter ⟨stem ++ "_test.go", d⟩ = false) := by
  have key : ∀ f : FileInfo, filter f = true ↔
      (¬ (∃ rest : String, f.Name = "." ++ rest)) ∧
      (∃ stem : String, f.Name = stem ++ ".go") ∧
      (¬ (∃ stem : String, f.Name = stem ++ "_test.go")) := by
    intro f
    unfold filter
    simp only [Bool.and_eq_true, Bool.not_eq_true', ← hasPrefix_iff, ← hasSuffix_iff,
      Bool.not_eq_true, and_assoc]
  refine ⟨key file, ?_, ?_⟩
  · intro rest d
    by_contra h
    rw [Bool.not_eq_false] at h
    exact ((key _).1 h).1 ⟨rest, rfl⟩
  · intro stem d
    by_contra h
    rw [Bool.not_eq_false] at h
    exact ((key _).1 h).2.2 ⟨stem, rfl⟩


/-! ## Lemmas on the rendering loops -/

theorem foldl_append_init (l : List String) (init : String) :
    l.foldl (fun r x => r ++ x) init = init ++ String.join l := by
  induction l generalizing init with
  | nil => simp [String.join]
  | cons a l ih =>
    have h1 := ih (init ++ a)
    have h2 := ih ("" ++ a)
    simp only [String.join, List.foldl_cons] at h1 h2 ⊢
    rw [h1, h2, String.empty_append, String.append_assoc]

theorem join_nil : String.join [] = "" := rfl

theorem join_cons (a : String) (l : List String) : String.join (a :: l) = a ++ String.join l := by
  have h := foldl_append_init l ("" ++ a)
  simp only [String.empty_append] at h
  simpa only [String.join, List.foldl_cons, String.empty_append] using h

theorem join_append (l₁ l₂ : List String) :
    String.join (l₁ ++ l₂) = String.join l₁ ++ String.join l₂ := by
  induction l₁ with
  | nil => simp [join_nil]
  | cons a l ih => rw [List.cons_append, join_cons, join_cons, ih, String.append_assoc]

theorem printToken_eq_ite (E : Env) (p : Pkg) (t : Node) :
    printToken E p t =
      if (E.Fprint p.files t).2.isSome then "" else (E.Fprint p.files t).1 := by
  unfold printToken
  cases h2 : (E.Fprint p.files t).2 <;> simp [h2]

theorem printValues_eq_join (E : Env) (p : Pkg) (vals : List Value) :
    printValues E p vals =
      String.join (vals.map (fun v =>
        "```\n" ++ printToken E p (.genDecl v.Decl) ++ "\n" ++
          printToken E p (.text v.Doc) ++ "\n```\n")) := by
  have key : ∀ (l : List Value) (init : String),
      l.foldl (fun b v => b ++ ("```\n" ++ printToken E p (.genDecl v.Decl) ++ "\n" ++
          printToken E p (.text v.Doc) ++ "\n```\n")) init =
        init ++ String.join (l.map (fun v =>
          "```\n" ++ printToken E p (.genDecl v.Decl) ++ "\n" ++
            printToken E p (.text v.Doc) ++ "\n```\n")) := by
    intro l
    induction l with
    | nil => intro init; simp [join_nil]
    | cons a l ih =>
      intro init
      rw [List.foldl_cons, ih, List.map_cons, join_cons, String.append_assoc]
  have h := key vals ""
  rw [String.empty_append] at h
  exact h

theorem printFuncs_fst_eq_join (E : Env) (p : Pkg) (funcs : List Func) :
    (printFuncs E p funcs).1 =
      String.join (funcs.map (fun f =>
        f.Doc ++ "\n```\n" ++ printToken E p (.funcDecl f.Decl) ++ "\n```\n")) := by
  have key : ∀ (l : List Func) (st : String × String),
      (l.foldl (fun (st : String × String) (f : Func) =>
          (st.1 ++ (f.Doc ++ "\n```\n" ++ printToken E p (.funcDecl f.Decl) ++ "\n```\n"),
            st.2 ++ ((if f.Recv ≠ "" then "(" ++ f.Recv ++ ")" else "") ++ "\n"))) st).1 =
        st.1 ++ String.join (l.map (fun f =>
          f.Doc ++ "\n```\n" ++ printToken E p (.funcDecl f.Decl) ++ "\n```\n")) := by
    intro l
    induction l with
    | nil => intro st; simp [join_nil]
    | cons a l ih =>
      intro st
      rw [List.foldl_cons, ih, List.map_cons, join_cons, String.append_assoc]
  have h := key funcs ("", "")
  rw [String.empty_append] at h
  exact h

theorem printTypes_fst_eq_map (E : Env) (p : Pkg) (types : List DocType) :
    (printTypes E p types).1 =
      types.map (fun t =>
        ({ Name := t.Name, Header := "type " ++ t.Name,
           Constants := printValues E p t.Consts, Variables := printValues E p t.Vars,
           Functions := (printFuncs E p t.Funcs).1 } : PkgType)) := by
  have key : ∀ (l : List DocType) (st : List PkgType × String),
      (l.foldl (fun (st : List PkgType × String) (t : DocType) =>
          (st.1 ++ [({ Name := t.Name, Header := "type " ++ t.Name,
                       Constants := printValues E p t.Consts,
                       Variables := printValues E p t.Vars,
                       Functions := (printFuncs E p t.Funcs).1 } : PkgType)],
            st.2 ++ (printFuncs E p t.Funcs).2)) st).1 =
        st.1 ++ l.map (fun t =>
          ({ Name := t.Name, Header := "type " ++ t.Name,
             Constants := printValues E p t.Consts, Variables := printValues E p t.Vars,
             Functions := (printFuncs E p t.Funcs).1 } : PkgType)) := by
    intro l
    induction l with
    | nil => intro st; simp
    | cons a l ih =>
      intro st
      rw [List.foldl_cons, ih, List.map_cons, List.append_assoc, List.singleton_append]
  have h := key types ([], "")
  rw [List.nil_append] at h
  exact h

/-! ## Lemmas on `parseDocs` and `makeDocs` -/

theorem makeDocs_of_error (E : Env) (p : Pkg) (e : Error)
    (herr : (E.ParseDir NewFileSet (E.Join E.srcdir p.Name) filter).err = some e) :
    makeDocs E p =
      ⟨{ p with files := (E.ParseDir NewFileSet (E.Join E.srcdir p.Name) filter).fset }, "",
        .returned (some e)⟩ := by
  simp only [makeDocs, parseDocs, herr]

theorem makeDocs_of_no_package (E : Env) (p : Pkg)
    (herr : (E.ParseDir NewFileSet (E.Join E.srcdir p.Name) filter).err = none)
    (hpkgs : (E.ParseDir NewFileSet (E.Join E.srcdir p.Name) filter).pkgs = []) :
    makeDocs E p =
      ⟨{ p with files := (E.ParseDir NewFileSet (E.Join E.srcdir p.Name) filter).fset }, "",
        .panicked "invalid memory address or nil pointer dereference"⟩ := by
  simp only [makeDocs, parseDocs, herr, hpkgs]

/-! ## Parse-stage failures -/

/-- C2. When the parser yields an empty set of packages and no error,
`makeDocs` does not return an error: `parseDocs` hands back a nil package with
a nil error and the read of `doc.Name` panics.  No field of `Docs` has been
assigned at that point. -/
theorem makeDocs_no_package_panics (E : Env) (p : Pkg)
    (herr : (E.ParseDir NewFileSet (E.Join E.srcdir p.Name) filter).err = none)
    (hpkgs : (E.ParseDir NewFileSet (E.Join E.srcdir p.Name) filter).pkgs = []) :
    (parseDocs E { p with files := NewFileSet }).2 = (none, none) ∧
    (makeDocs E p).outcome = .panicked "invalid memory address or nil pointer dereference" ∧
    (∀ err : Option Error, (makeDocs E p).outcome ≠ .returned err) ∧
    (makeDocs E p).pkg.Docs = p.Docs := by
  rw [makeDocs_of_no_package E p herr hpkgs]
  refine ⟨?_, rfl, ?_, rfl⟩
  · simp only [parseDocs, herr, hpkgs]
  · intro err h
    cases h

theorem makeDocs_no_package_panics_witness :
    (sampleEnv.ParseDir NewFileSet "src/empty" filter).pkgs = [] ∧
    (makeDocs sampleEnv (samplePkg "empty")).outcome =
      .panicked "invalid memory address or nil pointer dereference" ∧
    (makeDocs sampleEnv (samplePkg "empty")).pkg.Docs = (samplePkg "empty").Docs :=
  have h := makeDocs_no_package_panics sampleEnv (samplePkg "empty") (by decide) (by decide)
  ⟨by decide, h.2.1, h.2.2.2⟩

/-- C3. Whenever the parser reports an error, `makeDocs` returns that same
error, and the seven fields of `Docs` (Name, Import, Package, Constants,
Variables, Functions, Types) are what they were before the call. -/
theorem makeDocs_parse_error (E : Env) (p : Pkg) (e : Error)
    (herr : (E.ParseDir NewFileSet (E.Join E.srcdir p.Name) filter).err = some e) :
    (parseDocs E { p with files := NewFileSet }).2 = (none, some e) ∧
    (makeDocs E p).outcome = .returned (some e) ∧
    (makeDocs E p).pkg.Docs.Name = p.Docs.Name ∧
    (makeDocs E p).pkg.Docs.Import = p.Docs.Import ∧
    (makeDocs E p).pkg.Docs.Package = p.Docs.Package ∧
    (makeDocs E p).pkg.Docs.Constants = p.Docs.Constants ∧
    (makeDocs E p).pkg.Docs.Variables = p.Docs.Variables ∧
    (makeDocs E p).pkg.Docs.Functions = p.Docs.Functions ∧
    (makeDocs E p).pkg.Docs.Types = p.Docs.Types := by
  rw [makeDocs_of_error E p e herr]
  refine ⟨?_, rfl, rfl, rfl, rfl, rfl, rfl, rfl, rfl⟩
  simp only [parseDocs, herr]

theorem makeDocs_parse_error_witness :
    (sampleEnv.ParseDir NewFileSet "src/nowhere" filter).err =
      some ⟨"open src/nowhere: no such file or directory"⟩ ∧
    (makeDocs sampleEnv (samplePkg "nowhere")).outcome =
      .returned (some ⟨"open src/nowhere: no such file or directory"⟩) ∧
    (makeDocs sampleEnv (samplePkg "nowhere")).pkg.Docs.Types = (samplePkg "nowhere").Docs.Types :=
  have h := makeDocs_parse_error sampleEnv (samplePkg "nowhere")
    ⟨"open src/nowhere: no such file or directory"⟩ (by decide)
  ⟨by decide, h.2.1, h.2.2.2.2.2.2.2.2⟩

/-! ## Rendering of values and functions -/

/-- C5. What `printValues` produces for one value `v` opens with the fence:
the fence line, the serialized declaration, a newline, `printToken` of the doc
text, a newline and the closing fence line.  The doc text does not come first
and is not outside the fence; on the sample value, whose doc text is
"Pi is a ratio.", the output is the fenced declaration alone. -/
theorem printValues_single_layout (E : Env) (p : Pkg) (v : Value) :
    printValues E p [v] =
      "```\n" ++ printToken E p (.genDecl v.Decl) ++ "\n" ++
        printToken E p (.text v.Doc) ++ "\n```\n" ∧
    HasPrefix (printValues E p [v]) "```\n" = true ∧
    printValues sampleEnv (samplePkg "demo") [⟨"Pi is a ratio.\n", ["Pi"], ⟨1⟩⟩] =
      "```\nconst Pi = 3\n\n```\n" ∧
    HasPrefix (printValues sampleEnv (samplePkg "demo") [⟨"Pi is a ratio.\n", ["Pi"], ⟨1⟩⟩])
      "Pi is a ratio.\n" = false := by
  have h : printValues E p [v] =
      "```\n" ++ printToken E p (.genDecl v.Decl) ++ "\n" ++
        printToken E p (.text v.Doc) ++ "\n```\n" := by
    simp only [printValues, List.foldl_cons, List.foldl_nil, String.empty_append]
  refine ⟨h, ?_, by decide, by decide⟩
  rw [h, hasPrefix_iff]
  exact ⟨printToken E p (.genDecl v.Decl) ++ "\n" ++ printToken E p (.text v.Doc) ++ "\n```\n",
    by simp only [String.append_assoc]⟩

/-- C7. For every list of function declarations, `printFuncs` returns the
in-order concatenation of one block per function: the doc text verbatim, a
newline, the opening fence line, the declaration as the printer serialized it
(nothing when the printer reported an error), and the closing fence line.
When the printer serializes every declaration of the list, each fenced
fragment is exactly the printer's output.  Replacing the receiver names of the
functions by any others does not change the result. -/
theorem printFuncs_blocks (E : Env) (p : Pkg) (funcs : List Func) :
    (printFuncs E p funcs).1 =
      String.join (funcs.map (fun f =>
        f.Doc ++ "\n" ++ "```\n" ++
          (if (E.Fprint p.files (.funcDecl f.Decl)).2.isSome then ""
            else (E.Fprint p.files (.funcDecl f.Decl)).1) ++ "\n" ++ "```\n")) ∧
    ((∀ f ∈ funcs, (E.Fprint p.files (.funcDecl f.Decl)).2 = none) →
      (printFuncs E p funcs).1 =
        String.join (funcs.map (fun f =>
          f.Doc ++ "\n" ++ "```\n" ++ (E.Fprint p.files (.funcDecl f.Decl)).1 ++
            "\n" ++ "```\n"))) ∧
    ∀ recv : Func → String,
      (printFuncs E p (funcs.map (fun f => { f with Recv := recv f }))).1 =
        (printFuncs E p funcs).1 := by
  have h1 : ∀ a : String, a ++ "\n" ++ "```\n" = a ++ "\n```\n" := by
    intro a
    rw [String.append_assoc]
    rfl
  have hmain : (printFuncs E p funcs).1 =
      String.join (funcs.map (fun f =>
        f.Doc ++ "\n" ++ "```\n" ++
          (if (E.Fprint p.files (.funcDecl f.Decl)).2.isSome then ""
            else (E.Fprint p.files (.funcDecl f.Decl)).1) ++ "\n" ++ "```\n")) := by
    rw [printFuncs_fst_eq_join]
    congr 1
    apply List.map_congr_left
    intro f _
    rw [h1, h1, printToken_eq_ite]
  refine ⟨hmain, ?_, ?_⟩
  · intro hok
    rw [hmain]
    congr 1
    apply List.map_congr_left
    intro f hf
    rw [hok f hf]
    rfl
  · intro recv
    rw [printFuncs_fst_eq_join, printFuncs_fst_eq_join, List.map_map]
    rfl

theorem printFuncs_blocks_witness :
    (printFuncs sampleEnv (samplePkg "demo")
        [⟨"Bye says bye.\n", "Bye", ⟨4⟩, ""⟩, ⟨"M does.\n", "M", ⟨2⟩, "T"⟩]).1 =
      String.join
        ["Bye says bye.\n" ++ "\n" ++ "```\n" ++ "func Bye()" ++ "\n" ++ "```\n",
         "M does.\n" ++ "\n" ++ "```\n" ++ "func (t T) M()" ++ "\n" ++ "```\n"] :=
  (printFuncs_blocks sampleEnv (samplePkg "demo")
    [⟨"Bye says bye.\n", "Bye", ⟨4⟩, ""⟩, ⟨"M does.\n", "M", ⟨2⟩, "T"⟩]).2.1 (by decide)

/-- C8. For every list of types, `printTypes` returns a list of the same
length in the same order: its i-th entry carries the i-th type's name, the
header "type " followed by that name, and the `printValues`, `printValues` and
`printFuncs` renderings of that type's own constants, variables and functions.
A type with no constants, variables or functions has its entry all the same,
with three empty blocks. -/
theorem printTypes_entries (E : Env) (p : Pkg) (types : List DocType) :
    (printTypes E p types).1.length = types.length ∧
    (∀ i : Nat, (printTypes E p types).1[i]? =
      (types[i]?).map (fun t =>
        ({ Name := t.Name, Header := "type " ++ t.Name,
           Constants := printValues E p t.Consts, Variables := printValues E p t.Vars,
           Functions := (printFuncs E p t.Funcs).1 } : PkgType))) ∧
    (∀ (before after : List DocType) (doc name : String) (decl : GenDecl) (methods : List Func),
      (printTypes E p (before ++ ⟨doc, name, decl, [], [], [], methods⟩ :: after)).1[before.length]? =
        some ⟨name, "type " ++ name, "", "", ""⟩) := by
  refine ⟨?_, ?_, ?_⟩
  · rw [printTypes_fst_eq_map, List.length_map]
  · intro i
    rw [printTypes_fst_eq_map, List.getElem?_map]
  · intro before after doc name decl methods
    rw [printTypes_fst_eq_map, List.getElem?_map, List.getElem?_append_right (le_refl _)]
    simp [printValues, printFuncs]

/-! ## Separation of entries -/

/-- C6, as stated, fails: on two values, and on two functions, the sample
output has the second entry start on the line after the closing fence of the
first, and differs from the two renderings joined by a blank line. -/
theorem printers_insert_no_blank_line :
    printValues sampleEnv (samplePkg "demo")
        [⟨"Pi is a ratio.\n", ["Pi"], ⟨1⟩⟩, ⟨"Debug switches tracing.\n", ["Debug"], ⟨2⟩⟩] =
      "```\nconst Pi = 3\n\n```\n```\nvar Debug bool\n\n```\n" ∧
    printValues sampleEnv (samplePkg "demo")
        [⟨"Pi is a ratio.\n", ["Pi"], ⟨1⟩⟩, ⟨"Debug switches tracing.\n", ["Debug"], ⟨2⟩⟩] ≠
      printValues sampleEnv (samplePkg "demo") [⟨"Pi is a ratio.\n", ["Pi"], ⟨1⟩⟩] ++ "\n" ++
        printValues sampleEnv (samplePkg "demo") [⟨"Debug switches tracing.\n", ["Debug"], ⟨2⟩⟩] ∧
    (printFuncs sampleEnv (samplePkg "demo")
        [⟨"Hi says hi.", "Hi", ⟨1⟩, ""⟩, ⟨"Bye says bye.", "Bye", ⟨4⟩, ""⟩]).1 =
      "Hi says hi.\n```\nfunc Hi()\n```\nBye says bye.\n```\nfunc Bye()\n```\n" ∧
    (printFuncs sampleEnv (samplePkg "demo")
        [⟨"Hi says hi.", "Hi", ⟨1⟩, ""⟩, ⟨"Bye says bye.", "Bye", ⟨4⟩, ""⟩]).1 ≠
      (printFuncs sampleEnv (samplePkg "demo") [⟨"Hi says hi.", "Hi", ⟨1⟩, ""⟩]).1 ++ "\n" ++
        (printFuncs sampleEnv (samplePkg "demo") [⟨"Bye says bye.", "Bye", ⟨4⟩, ""⟩]).1 := by
  decide

/-- C6, amended. For every sequence of declarations, the block produced by
`printValues`, and likewise by `printFuncs`, is the per-entry renderings
concatenated in sequence order with nothing inserted between consecutive
entries: the rendering of the first entry, which ends with the closing fence
line, is followed at once by the block of the remaining entries, and the block
of no entries is empty. -/
theorem printers_concatenate_entries (E : Env) (p : Pkg) (v : Value) (vals : List Value)
    (f : Func) (funcs : List Func) :
    printValues E p [] = "" ∧
    printValues E p (v :: vals) =
      ("```\n" ++
        (if (E.Fprint p.files (.genDecl v.Decl)).2.isSome then ""
          else (E.Fprint p.files (.genDecl v.Decl)).1) ++ "\n" ++
        (if (E.Fprint p.files (.text v.Doc)).2.isSome then ""
          else (E.Fprint p.files (.text v.Doc)).1) ++ "\n```\n") ++
        printValues E p vals ∧
    (printFuncs E p []).1 = "" ∧
    (printFuncs E p (f :: funcs)).1 =
      (f.Doc ++ "\n```\n" ++
        (if (E.Fprint p.files (.funcDecl f.Decl)).2.isSome then ""
          else (E.Fprint p.files (.funcDecl f.Decl)).1) ++ "\n```\n") ++
        (printFuncs E p funcs).1 := by
  refine ⟨rfl, ?_, rfl, ?_⟩
  · rw [printValues_eq_join, printValues_eq_join, List.map_cons, join_cons,
      printToken_eq_ite, printToken_eq_ite]
  · rw [printFuncs_fst_eq_join, printFuncs_fst_eq_join, List.map_cons, join_cons,
      printToken_eq_ite]

/-! ## Methods -/

/-- C4. On the package "recv", which declares the type T and the method M with
receiver T, the declaration model keeps M under the `Methods` of T; the
assembler renders it nowhere: the package-level Functions block is empty, and
so is the Functions block of the entry named T, where the claim wants M
rendered once.  On the package "demo" the entry of T holds the block of the
function NewT and not that of the method M.  In general what `printTypes`
returns is the same whatever the methods of the types are. -/
theorem makeDocs_renders_no_method :
    ((sampleEnv.docNew ⟨"recv", ["recv.go"]⟩).Types.map (fun t => (t.Name, t.Methods))) =
      [("T", [⟨"M does.\n", "M", ⟨2⟩, "T"⟩])] ∧
    sampleEnv.Fprint ⟨["recv.go"]⟩ (.funcDecl ⟨2⟩) = ("func (t T) M()", none) ∧
    (makeDocs sampleEnv (samplePkg "recv")).outcome = .returned none ∧
    (makeDocs sampleEnv (samplePkg "recv")).pkg.Docs.Functions = "" ∧
    (makeDocs sampleEnv (samplePkg "recv")).pkg.Docs.Types = [⟨"T", "type T", "", "", ""⟩] ∧
    (makeDocs sampleEnv (samplePkg "demo")).pkg.Docs.Types.map (fun t => (t.Name, t.Functions)) =
      [("T", "NewT makes a T.\n\n```\nfunc NewT() T\n```\n"), ("U", "")] ∧
    (∀ (E : Env) (p : Pkg) (types : List DocType) (methods : DocType → List Func),
      (printTypes E p (types.map (fun t => { t with Methods := methods t }))).1 =
        (printTypes E p types).1) := by
  refine ⟨by decide, by decide, by decide, by decide, by decide, by decide, ?_⟩
  intro E p types methods
  rw [printTypes_fst_eq_map, printTypes_fst_eq_map, List.map_map]
  rfl

/-! ## Selection of the package -/

theorem sample_sameInput : SameInput sampleEnv sampleEnvRev := by
  refine ⟨rfl, rfl, rfl, rfl, ?_⟩
  intro fs dir flt
  simp only [sampleEnv, sampleEnvRev, sampleParseDir]
  cases sampleTree dir with
  | none => exact ⟨rfl, rfl, List.Perm.refl _⟩
  | some files => exact ⟨rfl, rfl, (List.reverse_perm _).symm⟩

/-- C9. The sample directory "src/two" holds accepted files of two package
names, main and two.  Two runs of `makeDocs` that get the same input and
differ only in the order in which the range over the package map visits it
select different packages and end with different `Docs`. -/
theorem makeDocs_depends_on_map_order :
    SameInput sampleEnv sampleEnvRev ∧
    ((sampleEnv.ParseDir NewFileSet "src/two" filter).pkgs.map (fun k => k.Name)) =
      ["main", "two"] ∧
    ((sampleEnvRev.ParseDir NewFileSet "src/two" filter).pkgs.map (fun k => k.Name)) =
      ["two", "main"] ∧
    (makeDocs sampleEnv (samplePkg "two")).outcome = .returned none ∧
    (makeDocs sampleEnvRev (samplePkg "two")).outcome = .returned none ∧
    (makeDocs sampleEnv (samplePkg "two")).pkg.Docs.Name = "main" ∧
    (makeDocs sampleEnvRev (samplePkg "two")).pkg.Docs.Name = "two" ∧
    (makeDocs sampleEnv (samplePkg "two")).pkg.Docs ≠
      (makeDocs sampleEnvRev (samplePkg "two")).pkg.Docs :=
  ⟨sample_sameInput, by decide, by decide, by decide, by decide, by decide, by decide,
    by decide⟩

/-! ## Degradation of a single node -/

theorem printToken_eq_of_fprint (E E' : Env) (p : Pkg) (t : Node)
    (h : E'.Fprint p.files t = E.Fprint p.files t) : printToken E' p t = printToken E p t := by
  unfold printToken
  rw [h]

theorem sample_healed_agrees (fs : FileSet) (m : Node) (hm : m ≠ .funcDecl ⟨9⟩) :
    sampleEnvHealed.Fprint fs m = sampleEnv.Fprint fs m := by
  simp only [sampleEnvHealed, sampleEnv, if_neg hm]

/-- C10. `printToken` returns the empty string for a node whose serialization
fails, whatever was written before the failure, and exactly the serialized
text otherwise; it has no error result, and `printValues`, `printFuncs` and
`printTypes`, total functions with plain results, have none either.  When the
node `n` fails, a function or value entry that carries `n` keeps its block with
an empty code fragment, and every other entry is rendered as in a world where
`n` serializes. -/
theorem printToken_degrades (E E' : Env) (p : Pkg) (n : Node) (e : Error)
    (hfail : (E.Fprint p.files n).2 = some e)
    (hsame : ∀ m : Node, m ≠ n → E'.Fprint p.files m = E.Fprint p.files m) :
    (∀ t : Node, printToken E p t =
      if (E.Fprint p.files t).2.isSome then "" else (E.Fprint p.files t).1) ∧
    printToken E p n = "" ∧
    (∀ (before after : List Func) (f : Func), n = .funcDecl f.Decl →
      (∀ g ∈ before ++ after, g.Decl ≠ f.Decl) →
      (printFuncs E p (before ++ f :: after)).1 =
        (printFuncs E' p before).1 ++ (f.Doc ++ "\n```\n" ++ "" ++ "\n```\n") ++
          (printFuncs E' p after).1) ∧
    (∀ (before after : List Value) (v : Value), n = .genDecl v.Decl →
      (∀ w ∈ before ++ after, w.Decl ≠ v.Decl) →
      printValues E p (before ++ v :: after) =
        printValues E' p before ++
          ("```\n" ++ "" ++ "\n" ++ printToken E' p (.text v.Doc) ++ "\n```\n") ++
          printValues E' p after) ∧
    (∀ types : List DocType, (printTypes E p types).1.length = types.length) := by
  have htok : ∀ t : Node, printToken E p t =
      if (E.Fprint p.files t).2.isSome then "" else (E.Fprint p.files t).1 := by
    intro t
    unfold printToken
    cases h2 : (E.Fprint p.files t).2 <;> simp [h2]
  have hn : printToken E p n = "" := by
    rw [htok n, hfail]
    rfl
  have hother : ∀ m : Node, m ≠ n → printToken E p m = printToken E' p m :=
    fun m hm => (printToken_eq_of_fprint E E' p m (hsame m hm)).symm
  refine ⟨htok, hn, ?_, ?_, ?_⟩
  · intro before after f hf hne
    have hblocks : ∀ l : List Func, (∀ g ∈ l, g.Decl ≠ f.Decl) →
        (printFuncs E p l).1 = (printFuncs E' p l).1 := by
      intro l hl
      rw [printFuncs_fst_eq_join, printFuncs_fst_eq_join]
      congr 1
      apply List.map_congr_left
      intro g hg
      rw [hother (.funcDecl g.Decl) (by rw [hf]; intro hc; exact hl g hg (Node.funcDecl.inj hc))]
    have hsplit : (printFuncs E p (before ++ f :: after)).1 =
        (printFuncs E p before).1 ++
          (f.Doc ++ "\n```\n" ++ printToken E p (.funcDecl f.Decl) ++ "\n```\n") ++
          (printFuncs E p after).1 := by
      simp only [printFuncs_fst_eq_join, List.map_append, List.map_cons, join_append, join_cons,
        String.append_assoc]
    rw [hsplit, ← hf, hn,
      hblocks before (fun g hg => hne g (List.mem_append_left _ hg)),
      hblocks after (fun g hg => hne g (List.mem_append_right _ hg))]
  · intro before after v hv hne
    have hdoc : printToken E p (.text v.Doc) = printToken E' p (.text v.Doc) :=
      hother _ (by rw [hv]; intro hc; cases hc)
    have hblocks : ∀ l : List Value, (∀ w ∈ l, w.Decl ≠ v.Decl) →
        printValues E p l = printValues E' p l := by
      intro l hl
      rw [printValues_eq_join, printValues_eq_join]
      congr 1
      apply List.map_congr_left
      intro w hw
      rw [hother (.genDecl w.Decl) (by rw [hv]; intro hc; exact hl w hw (Node.genDecl.inj hc)),
        hother (.text w.Doc) (by rw [hv]; intro hc; cases hc)]
    have hsplit : printValues E p (before ++ v :: after) =
        printValues E p before ++
          ("```\n" ++ printToken E p (.genDecl v.Decl) ++ "\n" ++
            printToken E p (.text v.Doc) ++ "\n```\n") ++
          printValues E p after := by
      simp only [printValues_eq_join, List.map_append, List.map_cons, join_append, join_cons,
        String.append_assoc]
    rw [hsplit, ← hv, hn, hdoc,
      hblocks before (fun w hw => hne w (List.mem_append_left _ hw)),
      hblocks after (fun w hw => hne w (List.mem_append_right _ hw))]
  · intro types
    rw [printTypes_fst_eq_map, List.length_map]

theorem printToken_degrades_witness :
    (sampleEnv.Fprint (samplePkg "demo").files (.funcDecl ⟨9⟩)).2 =
      some ⟨"go/printer: malformed declaration"⟩ ∧
    printToken sampleEnv (samplePkg "demo") (.funcDecl ⟨9⟩) = "" ∧
    (printFuncs sampleEnv (samplePkg "demo")
        ([⟨"Hi says hi.", "Hi", ⟨1⟩, ""⟩] ++ ⟨"Nine is broken.", "Nine", ⟨9⟩, ""⟩ ::
          [⟨"Bye says bye.", "Bye", ⟨4⟩, ""⟩])).1 =
      (printFuncs sampleEnvHealed (samplePkg "demo") [⟨"Hi says hi.", "Hi", ⟨1⟩, ""⟩]).1 ++
        ("Nine is broken." ++ "\n```\n" ++ "" ++ "\n```\n") ++
        (printFuncs sampleEnvHealed (samplePkg "demo") [⟨"Bye says bye.", "Bye", ⟨4⟩, ""⟩]).1 :=
  have h := printToken_degrades sampleEnv sampleEnvHealed (samplePkg "demo") (.funcDecl ⟨9⟩)
    ⟨"go/printer: malformed declaration"⟩ (by decide)
    (fun m hm => sample_healed_agrees _ m hm)
  ⟨by decide, h.2.1,
    h.2.2.1 [⟨"Hi says hi.", "Hi", ⟨1⟩, ""⟩] [⟨"Bye says bye.", "Bye", ⟨4⟩, ""⟩]
      ⟨"Nine is broken.", "Nine", ⟨9⟩, ""⟩ rfl (by decide)⟩

end Goggles
